import Mathlib

set_option maxHeartbeats 1000000

/-!
Shallow embedding of the transaction ledger (`be/src/olap/txn_manager.cpp`) and of the
compaction-scheduler admission logic (`be/src/olap/olap_server.cpp`) of the storage engine.

The ledger's two-level sharded maps (`txn_tablet_map_t`, `txn_partition_map_t`) are modelled
for a single shard: the C++ shard count is a power of two, every operation touches exactly the
shard selected by `hash(transaction_id)`, and the shards are fully independent, so one shard is
the faithful unit of reasoning (shard size 1 is a legal configuration).  `std::map` /
`std::unordered_map` values are modelled as association lists with overwrite/erase-all
normalising operations (`aupsert`, `aerase`), so lookup semantics agree with the C++ maps.

External collaborators (metadata store success, tablet lookup, binlog append, delete-bitmap
update, thread-pool submission, the best-candidate search of the tablet manager) are modelled
as explicit boolean / status oracles passed to the operations, exactly at the call sites where
the C++ code consults them.  `LOG(FATAL)` (a process abort on negative identifiers in
`commit_txn`) is modelled as the distinguished `Status.fatalInvalidArgs` result.
-/

/-- Error taxonomy: the status values returned by the embedded operations, mirroring the
`ErrorCode` values used in the source. -/
inductive Status where
  | ok
  | tooManyTransactions
  | rowsetInvalid
  | pushTransactionAlreadyExist
  | rowsetSaveFailed
  | transactionNotExist
  | transactionAlreadyCommitted
  | rowsetAddToBinlogFailed
  | deleteBitmapFailed
  | flushFailed
  | alreadyExist
  | internalError
  | fatalInvalidArgs
  deriving DecidableEq, Repr

/-- 128-bit caller-supplied idempotency token (`PUniqueId` with `hi`/`lo` words). -/
structure PUniqueId where
  hi : Int
  lo : Int
  deriving DecidableEq, Repr

/-- `TabletInfo(tablet_id, schema_hash, tablet_uid)`: the tablet identity used as inner map
key; the 128-bit uid is modelled as a `Nat`. -/
structure TabletInfo where
  tablet_id : Int
  schema_hash : Int
  tablet_uid : Nat
  deriving DecidableEq, Repr

/-- A rowset version `(first, second)`. -/
structure Version where
  first : Int
  second : Int
  deriving DecidableEq, Repr

/-- The part of a rowset the ledger observes: its id and its (mutable) version.
`make_visible(v)` sets `version := v` on the shared object. -/
structure Rowset where
  rowset_id : Nat
  version : Version
  deriving DecidableEq, Repr

/-- Modelled from the spec: `TabletTxnInfo` is declared in `txn_manager.h`, which is not part
of the sources; its fields (`load_id`, nullable `rowset`, `ingest`, `creation_time` set at
construction time, merge-on-write flag, optional delete bitmap handle, rowset-id snapshot)
follow the spec's `TabletTransactionState` and the uses in `txn_manager.cpp`. -/
structure TabletTxnInfo where
  load_id : PUniqueId
  rowset : Option Rowset
  ingest : Bool
  creation_time : Int
  unique_key_merge_on_write : Bool
  delete_bitmap : Option Nat
  rowset_ids : List Nat
  deriving DecidableEq, Repr

/-- Association-list lookup (first binding wins, like a C++ map that never holds duplicate
keys). -/
def alookup {α β : Type} [DecidableEq α] : List (α × β) → α → Option β
  | [], _ => none
  | (k, v) :: rest, a => if k = a then some v else alookup rest a

/-- Remove every binding of key `a` (`map::erase`; a no-op when the key is absent). -/
def aerase {α β : Type} [DecidableEq α] : List (α × β) → α → List (α × β)
  | [], _ => []
  | (k, v) :: rest, a => if k = a then aerase rest a else (k, v) :: aerase rest a

/-- Insert-or-overwrite a binding (`map[k] = v`). -/
def aupsert {α β : Type} [DecidableEq α] (l : List (α × β)) (a : α) (b : β) : List (α × β) :=
  (a, b) :: aerase l a

/-- The transaction key `(partition_id, transaction_id)`. -/
abbrev TxnKey := Int × Int

/-- One shard of the ledger: `txn_tablet_map_t` (key → tablet → state), the partition index
`txn_partition_map_t` (transaction_id → set of partition_ids), and the external rowset-meta
store modelled as the set of persisted `(tablet_uid, rowset_id)` keys. -/
structure LedgerState where
  tabletMap : List (TxnKey × List (TabletInfo × TabletTxnInfo))
  partitionMap : List (Int × List Int)
  metaStore : List (Nat × Nat)
  deriving DecidableEq, Repr

/-- The partition set registered for a transaction id (empty when absent). -/
def pmSet (pm : List (Int × List Int)) (tid : Int) : List Int :=
  (alookup pm tid).getD []

/-- `TxnManager::_insert_txn_partition_map_unlocked`: create the set if absent, then insert
the partition id. -/
def insertPartition (pm : List (Int × List Int)) (tid pid : Int) : List (Int × List Int) :=
  let ps := (alookup pm tid).getD []
  aupsert pm tid (if pid ∈ ps then ps else pid :: ps)

/-- `TxnManager::_clear_txn_partition_map_unlocked`: erase the partition id from the set and
drop the set when it becomes empty. -/
def clearPartition (pm : List (Int × List Int)) (tid pid : Int) : List (Int × List Int) :=
  match alookup pm tid with
  | none => pm
  | some ps =>
    let ps1 := ps.filter (fun x => decide (x ≠ pid))
    if ps1 = [] then aerase pm tid else aupsert pm tid ps1

/-- `RowsetMetaManager::save`: persist the meta keyed by `(tablet_uid, rowset_id)`. -/
def msInsert (ms : List (Nat × Nat)) (k : Nat × Nat) : List (Nat × Nat) :=
  if k ∈ ms then ms else k :: ms

/-- `RowsetMetaManager::remove`: drop the persisted key. -/
def msRemove (ms : List (Nat × Nat)) (k : Nat × Nat) : List (Nat × Nat) :=
  ms.filter (fun x => decide (x ≠ k))

/-- Two-level lookup of a ledger entry: transaction key, then tablet identity. -/
def lookup2 (s : LedgerState) (key : TxnKey) (tab : TabletInfo) : Option TabletTxnInfo :=
  (alookup s.tabletMap key).bind (fun tm => alookup tm tab)

/-- Step 1 of `TxnManager::prepare_txn`: an entry for the same tablet with an equal `load_id`
and a populated rowset makes the call a duplicate of an already-committed transaction. -/
def prepareDupCommitted (s : LedgerState) (key : TxnKey) (tab : TabletInfo)
    (load_id : PUniqueId) : Bool :=
  match lookup2 s key tab with
  | some info => decide (info.load_id = load_id) && info.rowset.isSome
  | none => false

/-- `TxnManager::prepare_txn` (txn_manager.cpp:101): duplicate-of-committed check, the
too-many-transactions backpressure check on the shard's partition-index size
(`config::max_runnings_transactions_per_txn_map`, the `cfgMaxTxns` argument), then insertion
of an empty entry (rowset `none`, creation time `now`) plus partition-index registration. -/
def prepare_txn (cfgMaxTxns : Nat) (now : Int) (s : LedgerState)
    (partition_id transaction_id : Int) (tab : TabletInfo) (load_id : PUniqueId)
    (ingest : Bool) : Status × LedgerState :=
  let key : TxnKey := (partition_id, transaction_id)
  if prepareDupCommitted s key tab load_id then (Status.ok, s)
  else if s.partitionMap.length > cfgMaxTxns then (Status.tooManyTransactions, s)
  else
    let info : TabletTxnInfo :=
      { load_id := load_id, rowset := none, ingest := ingest, creation_time := now,
        unique_key_merge_on_write := false, delete_bitmap := none, rowset_ids := [] }
    let tm0 := (alookup s.tabletMap key).getD []
    (Status.ok,
      { s with
        tabletMap := aupsert s.tabletMap key (aupsert tm0 tab info),
        partitionMap := insertPartition s.partitionMap transaction_id partition_id })

/-- `TxnManager::commit_txn` (txn_manager.cpp:216).  `saveOk` is the outcome of the external
`RowsetMetaManager::save` call, `recoveryMow` the merge-on-write property of the tablet looked
up in recovery mode.  Negative identifiers hit `LOG(FATAL)` in the source, modelled as
`fatalInvalidArgs`; a null rowset argument returns `rowsetInvalid`.  An equal `load_id` with
an already stored rowset is a duplicate success on an equal rowset id and
`pushTransactionAlreadyExist` on a different one; otherwise the meta is persisted and the
entry is (over)written with the committed state. -/
def commit_txn (saveOk : Bool) (now : Int) (s : LedgerState) (partition_id transaction_id : Int)
    (tab : TabletInfo) (load_id : PUniqueId) (rowsetArg : Option Rowset)
    (is_recovery recoveryMow : Bool) : Status × LedgerState :=
  if partition_id < 1 ∨ transaction_id < 1 ∨ tab.tablet_id < 1 then
    (Status.fatalInvalidArgs, s)
  else
    match rowsetArg with
    | none => (Status.rowsetInvalid, s)
    | some rp =>
      let key : TxnKey := (partition_id, transaction_id)
      let dup : Option Bool :=
        match lookup2 s key tab with
        | some info =>
          match info.rowset with
          | some r0 =>
            if info.load_id = load_id then
              (if r0.rowset_id = rp.rowset_id then some true else some false)
            else none
          | none => none
        | none => none
      match dup with
      | some true => (Status.ok, s)
      | some false => (Status.pushTransactionAlreadyExist, s)
      | none =>
        if !is_recovery && !saveOk then (Status.rowsetSaveFailed, s)
        else
          let ms1 :=
            if is_recovery then s.metaStore
            else msInsert s.metaStore (tab.tablet_uid, rp.rowset_id)
          let info0 : TabletTxnInfo :=
            { load_id := load_id, rowset := some rp, ingest := false, creation_time := now,
              unique_key_merge_on_write := false, delete_bitmap := none, rowset_ids := [] }
          let info1 :=
            if is_recovery && recoveryMow then
              { info0 with unique_key_merge_on_write := true, delete_bitmap := some 0 }
            else info0
          let tm0 := (alookup s.tabletMap key).getD []
          (Status.ok,
            { tabletMap := aupsert s.tabletMap key (aupsert tm0 tab info1),
              partitionMap := insertPartition s.partitionMap transaction_id partition_id,
              metaStore := ms1 })

/-- Externally observable actions of `publish_txn`, in program order. -/
inductive Event where
  | makeVisible
  | updateBitmap
  | binlogAdd
  | metaSave
  deriving DecidableEq, Repr

/-- Oracles for the external collaborators consulted by `publish_txn`: the tablet-manager
lookup, the tablet's binlog flag, the delete-bitmap update and transient-rowset flush results,
the partial-update schema flag, the binlog-append result and the meta-save result. -/
structure PublishEnv where
  tabletExists : Bool
  enableBinlog : Bool
  updateDeleteBitmapStatus : Status
  flushStatus : Status
  isPartialUpdate : Bool
  binlogOk : Bool
  saveOk : Bool
  deriving DecidableEq, Repr

/-- Steps 3–5 of `TxnManager::publish_txn`: binlog append (when enabled) before the final
rowset-meta save, then removal of the ledger entry and of its partition-index membership. -/
def publishFinish (env : PublishEnv) (s1 : LedgerState) (partition_id transaction_id : Int)
    (tab : TabletInfo) (rid : Nat) (tr : List Event) : Status × LedgerState × List Event :=
  let tr1 := if env.enableBinlog then tr ++ [Event.binlogAdd] else tr
  if env.enableBinlog && !env.binlogOk then (Status.rowsetAddToBinlogFailed, s1, tr1)
  else
    let tr2 := tr1 ++ [Event.metaSave]
    if !env.saveOk then (Status.rowsetSaveFailed, s1, tr2)
    else
      let s2 := { s1 with metaStore := msInsert s1.metaStore (tab.tablet_uid, rid) }
      let key : TxnKey := (partition_id, transaction_id)
      match alookup s2.tabletMap key with
      | none => (Status.ok, s2, tr2)
      | some tm =>
        let tm2 := aerase tm tab
        if tm2 = [] then
          (Status.ok,
            { s2 with
              tabletMap := aerase s2.tabletMap key,
              partitionMap := clearPartition s2.partitionMap transaction_id partition_id },
            tr2)
        else (Status.ok, { s2 with tabletMap := aupsert s2.tabletMap key tm2 }, tr2)

/-- `TxnManager::publish_txn` (txn_manager.cpp:319).  When the tablet manager does not know
the tablet the call returns `ok` untouched; a missing entry or null rowset yields
`transactionNotExist`.  `make_visible` mutates the shared rowset object, which the embedding
reflects by writing the version-updated rowset back into the entry; the optional
merge-on-write work, the binlog append and the meta save follow in program order, and only a
fully successful call removes the ledger entry. -/
def publish_txn (env : PublishEnv) (s : LedgerState) (partition_id transaction_id : Int)
    (tab : TabletInfo) (v : Version) : Status × LedgerState × List Event :=
  if env.tabletExists = false then (Status.ok, s, [])
  else
    let key : TxnKey := (partition_id, transaction_id)
    match lookup2 s key tab with
    | none => (Status.transactionNotExist, s, [])
    | some info =>
      match info.rowset with
      | none => (Status.transactionNotExist, s, [])
      | some r =>
        let r1 : Rowset := { r with version := v }
        let info1 := { info with rowset := some r1 }
        let tm0 := (alookup s.tabletMap key).getD []
        let s1 := { s with tabletMap := aupsert s.tabletMap key (aupsert tm0 tab info1) }
        if info.unique_key_merge_on_write then
          if env.updateDeleteBitmapStatus ≠ Status.ok then
            (env.updateDeleteBitmapStatus, s1, [Event.makeVisible, Event.updateBitmap])
          else if env.isPartialUpdate ∧ env.flushStatus ≠ Status.ok then
            (env.flushStatus, s1, [Event.makeVisible, Event.updateBitmap])
          else
            publishFinish env s1 partition_id transaction_id tab r1.rowset_id
              [Event.makeVisible, Event.updateBitmap]
        else
          publishFinish env s1 partition_id transaction_id tab r1.rowset_id
            [Event.makeVisible]

/-- The `load_info.rowset != nullptr` test of `rollback_txn` on a tablet map. -/
def rowsetCommitted (tm : List (TabletInfo × TabletTxnInfo)) (tab : TabletInfo) : Bool :=
  match alookup tm tab with
  | some info => info.rowset.isSome
  | none => false

/-- `TxnManager::rollback_txn` (txn_manager.cpp:458): refuses with
`transactionAlreadyCommitted` when the entry already holds a rowset, otherwise erases the
entry (and the key plus its partition-index membership when the tablet map empties). -/
def rollback_txn (s : LedgerState) (partition_id transaction_id : Int) (tab : TabletInfo) :
    Status × LedgerState :=
  let key : TxnKey := (partition_id, transaction_id)
  match alookup s.tabletMap key with
  | none => (Status.ok, s)
  | some tm =>
    if rowsetCommitted tm tab then (Status.transactionAlreadyCommitted, s)
    else
      let tm1 := aerase tm tab
      if tm1 = [] then
        (Status.ok,
          { tabletMap := aerase s.tabletMap key,
            partitionMap := clearPartition s.partitionMap transaction_id partition_id,
            metaStore := s.metaStore })
      else (Status.ok, { s with tabletMap := aupsert s.tabletMap key tm1 })

/-- The already-published test of `delete_txn`: entry holds a rowset, a meta store is
supplied, and the rowset's version is a real one (`version.first > 0`). -/
def deletePublished (metaPresent : Bool) (tm : List (TabletInfo × TabletTxnInfo))
    (tab : TabletInfo) : Bool :=
  match alookup tm tab with
  | some info =>
    match info.rowset with
    | some r => if r.version.first > 0 then metaPresent else false
    | none => false
  | none => false

/-- The `RowsetMetaManager::remove` effect of `delete_txn` / the force-rollback sweep on the
meta store: performed only when the entry holds a rowset and a meta store is supplied. -/
def deleteMeta (metaPresent : Bool) (ms : List (Nat × Nat))
    (tm : List (TabletInfo × TabletTxnInfo)) (tab : TabletInfo) : List (Nat × Nat) :=
  match alookup tm tab with
  | some info =>
    match info.rowset with
    | some r => if metaPresent then msRemove ms (tab.tablet_uid, r.rowset_id) else ms
    | none => ms
  | none => ms

/-- `TxnManager::delete_txn` (txn_manager.cpp:491).  `metaPresent` models the `meta != nullptr`
check (the public wrapper always passes the data dir's meta).  A rowset already published
(version.first > 0) is refused with `transactionAlreadyCommitted`; an unpublished rowset has
its persisted meta removed; in all non-error cases the entry is erased. -/
def delete_txn (metaPresent : Bool) (s : LedgerState) (partition_id transaction_id : Int)
    (tab : TabletInfo) : Status × LedgerState :=
  let key : TxnKey := (partition_id, transaction_id)
  match alookup s.tabletMap key with
  | none => (Status.transactionNotExist, s)
  | some tm =>
    if deletePublished metaPresent tm tab then (Status.transactionAlreadyCommitted, s)
    else
      let ms1 := deleteMeta metaPresent s.metaStore tm tab
      let tm1 := aerase tm tab
      if tm1 = [] then
        (Status.ok,
          { tabletMap := aerase s.tabletMap key,
            partitionMap := clearPartition s.partitionMap transaction_id partition_id,
            metaStore := ms1 })
      else (Status.ok, { s with tabletMap := aupsert s.tabletMap key tm1, metaStore := ms1 })

/-- The per-entry tablet-map update performed by `force_rollback_tablet_related_txns`: erase
the tablet's entry when present. -/
def procInner (tab : TabletInfo) (tm : List (TabletInfo × TabletTxnInfo)) :
    List (TabletInfo × TabletTxnInfo) :=
  match alookup tm tab with
  | some _ => aerase tm tab
  | none => tm

/-- Loop body of `TxnManager::force_rollback_tablet_related_txns` (txn_manager.cpp:566) over
one shard's entries, threading the partition index and the meta store: for every transaction
key, remove the tablet's entry (and its persisted rowset meta when one exists and a meta store
is supplied), and drop the key plus its partition-index membership when the tablet map
empties. -/
def forceRollbackAux (metaPresent : Bool) (tab : TabletInfo) :
    List (TxnKey × List (TabletInfo × TabletTxnInfo)) → List (Int × List Int) →
    List (Nat × Nat) →
    List (TxnKey × List (TabletInfo × TabletTxnInfo)) × List (Int × List Int) ×
      List (Nat × Nat)
  | [], pm, ms => ([], pm, ms)
  | (key, tm) :: rest, pm, ms =>
    let ms1 := deleteMeta metaPresent ms tm tab
    let tm1 := procInner tab tm
    if tm1 = [] then
      forceRollbackAux metaPresent tab rest (clearPartition pm key.2 key.1) ms1
    else
      let r := forceRollbackAux metaPresent tab rest pm ms1
      ((key, tm1) :: r.1, r.2.1, r.2.2)

/-- `TxnManager::force_rollback_tablet_related_txns` on one shard. -/
def force_rollback_tablet_related_txns (metaPresent : Bool) (s : LedgerState)
    (tab : TabletInfo) : LedgerState :=
  let r := forceRollbackAux metaPresent tab s.tabletMap s.partitionMap s.metaStore
  { tabletMap := r.1, partitionMap := r.2.1, metaStore := r.2.2 }

/-- Characterisation of the tablet-map result of `forceRollbackAux` (proof helper). -/
def procMap (tab : TabletInfo) :
    List (TxnKey × List (TabletInfo × TabletTxnInfo)) →
    List (TxnKey × List (TabletInfo × TabletTxnInfo))
  | [] => []
  | (key, tm) :: rest =>
    let tm1 := procInner tab tm
    if tm1 = [] then procMap tab rest else (key, tm1) :: procMap tab rest

/-- The transaction keys whose entry empties during `forceRollbackAux` (proof helper). -/
def droppedKeys (tab : TabletInfo) :
    List (TxnKey × List (TabletInfo × TabletTxnInfo)) → List TxnKey
  | [] => []
  | (key, tm) :: rest =>
    if procInner tab tm = [] then key :: droppedKeys tab rest else droppedKeys tab rest

/-- Fold of `clearPartition` over a list of dropped transaction keys (proof helper). -/
def foldClear : List (Int × List Int) → List TxnKey → List (Int × List Int)
  | pm, [] => pm
  | pm, k :: ks => foldClear (clearPartition pm k.2 k.1) ks

/-- A ledger mutating operation together with its arguments and external oracles. -/
inductive LedgerOp where
  | prep (cfgMaxTxns : Nat) (now : Int) (partition_id transaction_id : Int) (tab : TabletInfo)
      (load_id : PUniqueId) (ingest : Bool)
  | commit (saveOk : Bool) (now : Int) (partition_id transaction_id : Int) (tab : TabletInfo)
      (load_id : PUniqueId) (rowsetArg : Option Rowset) (is_recovery recoveryMow : Bool)
  | publish (env : PublishEnv) (partition_id transaction_id : Int) (tab : TabletInfo)
      (v : Version)
  | rollback (partition_id transaction_id : Int) (tab : TabletInfo)
  | del (metaPresent : Bool) (partition_id transaction_id : Int) (tab : TabletInfo)
  | forceRollback (metaPresent : Bool) (tab : TabletInfo)

/-- The state after running one ledger operation. -/
def applyOp : LedgerOp → LedgerState → LedgerState
  | .prep c n p t tb l i, s => (prepare_txn c n s p t tb l i).2
  | .commit sv n p t tb l ra ir rm, s => (commit_txn sv n s p t tb l ra ir rm).2
  | .publish env p t tb v, s => (publish_txn env s p t tb v).2.1
  | .rollback p t tb, s => (rollback_txn s p t tb).2
  | .del mp p t tb, s => (delete_txn mp s p t tb).2
  | .forceRollback mp tb, s => force_rollback_tablet_related_txns mp s tb

/-- Consistency of the partition index with the transaction map: a transaction id maps to a
partition id exactly when the transaction map holds a non-empty tablet map under the key
`(partition_id, transaction_id)`. -/
def pcRel (m : List (TxnKey × List (TabletInfo × TabletTxnInfo)))
    (pm : List (Int × List Int)) : Prop :=
  ∀ tid pid : Int, pid ∈ pmSet pm tid ↔ ∃ tm, alookup m (pid, tid) = some tm ∧ tm ≠ []

/-- The partition-index consistency invariant of a ledger shard. -/
def partitionConsistent (s : LedgerState) : Prop :=
  pcRel s.tabletMap s.partitionMap

/-- Compaction class. -/
inductive CompactionType where
  | cumulative
  | base
  deriving DecidableEq, Repr

/-- Per data directory snapshot of the submitted-task registries
(`_tablet_submitted_cumu_compaction` / `_tablet_submitted_base_compaction`). -/
structure DirState where
  cumuSubmitted : List Int
  baseSubmitted : List Int
  deriving DecidableEq, Repr

/-- Per-data-dir body of `StorageEngine::_generate_compaction_tasks`
(olap_server.cpp:528-580): slot accounting over the submitted cumulative plus base tasks
(`thread_per_disk` slots), the last-slot rule for base compaction, the capacity check and the
best-candidate pick.  `bestTablet` is the tablet returned by the external
`TabletManager::find_best_tablet_to_compaction`; the result is the tablet appended to this
round's `tablets_compaction`, if any.  The `check_score` flag only controls whether a
saturated directory is still scanned for the score metric; it never enables a pick. -/
def generate_compaction_tasks_for_dir (ctype : CompactionType) (threadPerDisk : Nat)
    (checkScore : Bool) (reachCapacityLimit : Bool) (bestTablet : Option Int)
    (disableAutoCompaction : Bool) (d : DirState) : Option Int :=
  let count := d.cumuSubmitted.length + d.baseSubmitted.length
  let needPickTablet :=
    if count ≥ threadPerDisk then false
    else if count ≥ threadPerDisk - 1 then
      match ctype with
      | CompactionType.base => if d.cumuSubmitted.isEmpty then false else true
      | CompactionType.cumulative => true
    else true
  if needPickTablet = false ∧ checkScore = false then none
  else if reachCapacityLimit then none
  else
    match bestTablet with
    | none => none
    | some t =>
      if disableAutoCompaction then none
      else if needPickTablet then some t else none

/-- Result of one run of the compaction submission path, with the permit amounts passed to
`PermitLimiter::request` and `PermitLimiter::release` over the task's whole lifecycle. -/
structure SubmitOutcome where
  status : Status
  requests : List Int
  releases : List Int
  deriving DecidableEq, Repr

/-- `StorageEngine::_submit_compaction_task` (olap_server.cpp:640) including the permit
release performed later by the in-pool closure: dedupe via the submitted registry
(`alreadyExist`), permit calculation (`prepareStatus`, `permits` from the external
`prepare_compaction_and_calculate_permits`), the `force`-guarded permit request, thread-pool
submission (`poolSubmitOk`) and the release sites on the success closure and on the
submission-failure branch. -/
def submit_compaction_task (force alreadyExist : Bool) (prepareStatus : Status)
    (permits : Int) (poolSubmitOk : Bool) : SubmitOutcome :=
  if alreadyExist then { status := Status.alreadyExist, requests := [], releases := [] }
  else if prepareStatus = Status.ok ∧ permits > 0 then
    let reqs := if force then [] else [permits]
    if poolSubmitOk then { status := Status.ok, requests := reqs, releases := [permits] }
    else { status := Status.internalError, requests := reqs, releases := [permits] }
  else if prepareStatus = Status.ok then { status := Status.ok, requests := [], releases := [] }
  else { status := Status.internalError, requests := [], releases := [] }

/-- The empty ledger shard. -/
def emptyLedger : LedgerState :=
  { tabletMap := [], partitionMap := [], metaStore := [] }

/-- Concrete tablet identity used by the witnesses. -/
def tab0 : TabletInfo :=
  { tablet_id := 5, schema_hash := 1, tablet_uid := 10 }

/-- Concrete load id used by the witnesses. -/
def loadA : PUniqueId :=
  { hi := 1, lo := 2 }

/-- Concrete unpublished rowset used by the witnesses. -/
def rowA : Rowset :=
  { rowset_id := 100, version := { first := 0, second := 0 } }

/-- A conflicting rowset with a different id. -/
def rowB : Rowset :=
  { rowset_id := 101, version := { first := 0, second := 0 } }

/-- A rowset already published at version (2, 0). -/
def rowPub : Rowset :=
  { rowset_id := 100, version := { first := 2, second := 0 } }

/-- Committed entry holding `rowA` under `loadA`. -/
def infoA : TabletTxnInfo :=
  { load_id := loadA, rowset := some rowA, ingest := false, creation_time := 0,
    unique_key_merge_on_write := false, delete_bitmap := none, rowset_ids := [] }

/-- Entry holding the already published `rowPub`. -/
def infoPub : TabletTxnInfo :=
  { infoA with rowset := some rowPub }

/-- Prepared (not yet committed) entry. -/
def infoPrep : TabletTxnInfo :=
  { infoA with rowset := none }

/-- Shard with one committed entry for `(partition 1, transaction 1)` on `tab0`. -/
def sCommitted : LedgerState :=
  { tabletMap := [((1, 1), [(tab0, infoA)])], partitionMap := [(1, [1])], metaStore := [] }

/-- Shard with one published entry for `(partition 1, transaction 1)` on `tab0`. -/
def sPublished : LedgerState :=
  { tabletMap := [((1, 1), [(tab0, infoPub)])], partitionMap := [(1, [1])], metaStore := [] }

/-- Shard with one prepared entry for `(partition 1, transaction 1)` on `tab0`. -/
def sPrepared : LedgerState :=
  { tabletMap := [((1, 1), [(tab0, infoPrep)])], partitionMap := [(1, [1])], metaStore := [] }

/-- Publish environment used by the C3 witness: tablet known, binlog enabled, binlog append
failing, everything else succeeding. -/
def envBinlogFail : PublishEnv :=
  { tabletExists := true, enableBinlog := true, updateDeleteBitmapStatus := Status.ok,
    flushStatus := Status.ok, isPartialUpdate := false, binlogOk := false, saveOk := true }

/-- Publish environment whose tablet-manager lookup fails. -/
def envNoTablet : PublishEnv :=
  { tabletExists := false, enableBinlog := false, updateDeleteBitmapStatus := Status.ok,
    flushStatus := Status.ok, isPartialUpdate := false, binlogOk := true, saveOk := true }

/-- Publish environment with the tablet known and every external call succeeding. -/
def envAllOk : PublishEnv :=
  { tabletExists := true, enableBinlog := false, updateDeleteBitmapStatus := Status.ok,
    flushStatus := Status.ok, isPartialUpdate := false, binlogOk := true, saveOk := true }

/-! Association-list lemmas. -/

theorem alookup_cons {α β : Type} [DecidableEq α] (k : α) (v : β) (l : List (α × β)) (a : α) :
    alookup ((k, v) :: l) a = if k = a then some v else alookup l a := rfl

theorem aerase_cons {α β : Type} [DecidableEq α] (k : α) (v : β) (l : List (α × β)) (a : α) :
    aerase ((k, v) :: l) a = if k = a then aerase l a else (k, v) :: aerase l a := rfl

theorem alookup_aerase {α β : Type} [DecidableEq α] (l : List (α × β)) (a x : α) :
    alookup (aerase l a) x = if x = a then none else alookup l x := by
  induction l with
  | nil => simp [aerase, alookup]
  | cons hd tl ih =>
    obtain ⟨k, v⟩ := hd
    rw [aerase_cons]
    by_cases hka : k = a
    · rw [if_pos hka, ih, alookup_cons]
      subst hka
      by_cases hxk : x = k
      · subst hxk
        simp
      · have hkx : ¬k = x := fun h => hxk h.symm
        simp [hxk, hkx]
    · rw [if_neg hka, alookup_cons, ih, alookup_cons]
      by_cases hkx : k = x
      · subst hkx
        simp [hka]
      · simp [hkx]

theorem alookup_aupsert {α β : Type} [DecidableEq α] (l : List (α × β)) (a : α) (b : β)
    (x : α) : alookup (aupsert l a b) x = if a = x then some b else alookup l x := by
  unfold aupsert
  rw [alookup_cons, alookup_aerase]
  by_cases h : a = x
  · simp [h]
  · have h2 : ¬x = a := fun hh => h hh.symm
    simp [h, h2]

theorem aerase_aerase {α β : Type} [DecidableEq α] (l : List (α × β)) (a : α) :
    aerase (aerase l a) a = aerase l a := by
  induction l with
  | nil => rfl
  | cons hd tl ih =>
    obtain ⟨k, v⟩ := hd
    by_cases h : k = a <;> simp [aerase, h, ih]

theorem aupsert_aupsert {α β : Type} [DecidableEq α] (l : List (α × β)) (a : α) (b c : β) :
    aupsert (aupsert l a b) a c = aupsert l a c := by
  simp [aupsert, aerase, aerase_aerase]

theorem aerase_sublist {α β : Type} [DecidableEq α] (l : List (α × β)) (a : α) :
    List.Sublist (aerase l a) l := by
  induction l with
  | nil => simp [aerase]
  | cons hd tl ih =>
    obtain ⟨k, v⟩ := hd
    by_cases h : k = a
    · simpa [aerase, h] using ih.cons (k, v)
    · simpa [aerase, h] using ih.cons₂ (k, v)

theorem not_mem_keys_aerase {α β : Type} [DecidableEq α] (l : List (α × β)) (a : α) :
    a ∉ (aerase l a).map Prod.fst := by
  induction l with
  | nil => simp [aerase]
  | cons hd tl ih =>
    obtain ⟨k, v⟩ := hd
    by_cases h : k = a
    · simpa [aerase, h] using ih
    · simp only [aerase, if_neg h, List.map_cons, List.mem_cons]
      rintro (rfl | hmem)
      · exact h rfl
      · exact ih hmem

theorem alookup_eq_none_of_not_mem_keys {α β : Type} [DecidableEq α] {l : List (α × β)}
    {a : α} (h : a ∉ l.map Prod.fst) : alookup l a = none := by
  induction l with
  | nil => rfl
  | cons hd tl ih =>
    obtain ⟨k, v⟩ := hd
    simp only [List.map_cons, List.mem_cons, not_or] at h
    have hka : ¬k = a := fun hh => h.1 hh.symm
    simp only [alookup_cons, if_neg hka]
    exact ih h.2

theorem nodup_keys_aerase {α β : Type} [DecidableEq α] {l : List (α × β)} (a : α)
    (h : (l.map Prod.fst).Nodup) : ((aerase l a).map Prod.fst).Nodup :=
  h.sublist ((aerase_sublist l a).map Prod.fst)

theorem nodup_keys_aupsert {α β : Type} [DecidableEq α] {l : List (α × β)} (a : α) (b : β)
    (h : (l.map Prod.fst).Nodup) : ((aupsert l a b).map Prod.fst).Nodup := by
  simp only [aupsert, List.map_cons, List.nodup_cons]
  exact ⟨not_mem_keys_aerase l a, nodup_keys_aerase a h⟩

theorem alookup_isSome_ne_nil {α β : Type} [DecidableEq α] {l : List (α × β)} {a : α}
    {b : β} (h : alookup l a = some b) : l ≠ [] := by
  intro hnil
  subst hnil
  simp [alookup] at h

/-! Partition-index lemmas. -/

theorem mem_pmSet_insertPartition (pm : List (Int × List Int)) (t0 p0 t p : Int) :
    p ∈ pmSet (insertPartition pm t0 p0) t ↔ (t = t0 ∧ p = p0) ∨ p ∈ pmSet pm t := by
  unfold insertPartition pmSet
  rw [alookup_aupsert]
  by_cases ht : t0 = t
  · subst ht
    simp only [if_pos rfl, Option.getD_some, eq_self_iff_true, true_and]
    by_cases hp : p0 ∈ (alookup pm t0).getD []
    · rw [if_pos hp]
      exact ⟨Or.inr, fun h => h.elim (fun he => he ▸ hp) id⟩
    · rw [if_neg hp]
      exact List.mem_cons
  · have ht2 : ¬t = t0 := fun h => ht h.symm
    simp [ht, ht2]

theorem mem_pmSet_clearPartition (pm : List (Int × List Int)) (t0 p0 t p : Int) :
    p ∈ pmSet (clearPartition pm t0 p0) t ↔ p ∈ pmSet pm t ∧ ¬(t = t0 ∧ p = p0) := by
  unfold clearPartition pmSet
  cases hl : alookup pm t0 with
  | none =>
    by_cases ht : t = t0
    · subst ht
      simp [hl]
    · simp [ht]
  | some ps =>
    simp only
    by_cases hnil : ps.filter (fun x => decide (x ≠ p0)) = []
    · rw [if_pos hnil, alookup_aerase]
      by_cases ht : t = t0
      · subst ht
        rw [if_pos rfl]
        simp only [Option.getD_none, List.not_mem_nil, false_iff, hl, Option.getD_some]
        rintro ⟨hmem, hne⟩
        have : p = p0 := by
          by_contra hne2
          have : p ∈ ps.filter (fun x => decide (x ≠ p0)) :=
            List.mem_filter.2 ⟨hmem, by simpa using hne2⟩
          rw [hnil] at this
          exact List.not_mem_nil p this
        exact hne ⟨by trivial, this⟩
      · simp [ht]
    · rw [if_neg hnil, alookup_aupsert]
      by_cases ht : t0 = t
      · subst ht
        rw [if_pos rfl]
        simp only [Option.getD_some, hl, List.mem_filter, decide_eq_true_eq]
        constructor
        · rintro ⟨hmem, hne⟩
          exact ⟨hmem, fun hc => hne hc.2⟩
        · rintro ⟨hmem, hne⟩
          exact ⟨hmem, fun hc => hne ⟨by trivial, hc⟩⟩
      · have ht2 : ¬t = t0 := fun h => ht h.symm
        simp [ht, ht2]

/-! Consistency-relation helpers. -/

theorem pcRel_upsert_new {m : List (TxnKey × List (TabletInfo × TabletTxnInfo))}
    {pm : List (Int × List Int)} (h : pcRel m pm) (p0 t0 : Int)
    {tm1 : List (TabletInfo × TabletTxnInfo)} (hne : tm1 ≠ []) :
    pcRel (aupsert m (p0, t0) tm1) (insertPartition pm t0 p0) := by
  intro tid pid
  rw [mem_pmSet_insertPartition]
  constructor
  · rintro (⟨rfl, rfl⟩ | hmem)
    · exact ⟨tm1, by rw [alookup_aupsert, if_pos rfl], hne⟩
    · obtain ⟨tm, hlk, hn⟩ := (h tid pid).1 hmem
      by_cases hkey : ((p0 : Int), (t0 : Int)) = ((pid : Int), (tid : Int))
      · exact ⟨tm1, by rw [alookup_aupsert, if_pos hkey], hne⟩
      · exact ⟨tm, by rw [alookup_aupsert, if_neg hkey]; exact hlk, hn⟩
  · rintro ⟨tm, hlk, hn⟩
    rw [alookup_aupsert] at hlk
    by_cases hkey : ((p0 : Int), (t0 : Int)) = ((pid : Int), (tid : Int))
    · injection hkey with h1 h2
      subst h1
      subst h2
      exact Or.inl ⟨rfl, rfl⟩
    · rw [if_neg hkey] at hlk
      exact Or.inr ((h tid pid).2 ⟨tm, hlk, hn⟩)

theorem pcRel_upsert_existing {m : List (TxnKey × List (TabletInfo × TabletTxnInfo))}
    {pm : List (Int × List Int)} (h : pcRel m pm) {k : TxnKey}
    {tm tm1 : List (TabletInfo × TabletTxnInfo)} (hlk : alookup m k = some tm)
    (htm : tm ≠ []) (htm1 : tm1 ≠ []) : pcRel (aupsert m k tm1) pm := by
  intro tid pid
  rw [h tid pid]
  by_cases hkey : k = (pid, tid)
  · subst hkey
    constructor
    · rintro ⟨tm2, hl2, hn2⟩
      exact ⟨tm1, by rw [alookup_aupsert, if_pos rfl], htm1⟩
    · rintro ⟨tm2, hl2, hn2⟩
      exact ⟨tm, hlk, htm⟩
  · constructor
    · rintro ⟨tm2, hl2, hn2⟩
      exact ⟨tm2, by rw [alookup_aupsert, if_neg hkey]; exact hl2, hn2⟩
    · rintro ⟨tm2, hl2, hn2⟩
      rw [alookup_aupsert, if_neg hkey] at hl2
      exact ⟨tm2, hl2, hn2⟩

theorem pcRel_erase_clear {m : List (TxnKey × List (TabletInfo × TabletTxnInfo))}
    {pm : List (Int × List Int)} (h : pcRel m pm) (p0 t0 : Int) :
    pcRel (aerase m (p0, t0)) (clearPartition pm t0 p0) := by
  intro tid pid
  rw [mem_pmSet_clearPartition]
  by_cases hkey : ((pid : Int), (tid : Int)) = ((p0 : Int), (t0 : Int))
  · injection hkey with h1 h2
    subst h1
    subst h2
    constructor
    · rintro ⟨hmem, hne⟩
      exact absurd ⟨rfl, rfl⟩ hne
    · rintro ⟨tm, hlk, _⟩
      rw [alookup_aerase, if_pos rfl] at hlk
      exact absurd hlk (by simp)
  · constructor
    · rintro ⟨hmem, -⟩
      obtain ⟨tm, hlk, hn⟩ := (h tid pid).1 hmem
      refine ⟨tm, ?_, hn⟩
      rw [alookup_aerase, if_neg hkey]
      exact hlk
    · rintro ⟨tm, hlk, hn⟩
      rw [alookup_aerase, if_neg hkey] at hlk
      refine ⟨(h tid pid).2 ⟨tm, hlk, hn⟩, ?_⟩
      rintro ⟨rfl, rfl⟩
      exact hkey rfl

/-! Per-operation preservation of the partition-index consistency and of key uniqueness. -/

theorem aupsert_ne_nil {α β : Type} [DecidableEq α] (l : List (α × β)) (a : α) (b : β) :
    aupsert l a b ≠ [] := by
  simp [aupsert]

theorem aerase_ne_nil_src {α β : Type} [DecidableEq α] {l : List (α × β)} {a : α}
    (h : aerase l a ≠ []) : l ≠ [] := by
  intro hnil
  subst hnil
  exact h rfl

theorem prepare_txn_pcRel (c : Nat) (n : Int) (s : LedgerState) (p t : Int)
    (tb : TabletInfo) (l : PUniqueId) (i : Bool) (h : partitionConsistent s) :
    partitionConsistent (prepare_txn c n s p t tb l i).2 := by
  simp only [prepare_txn]
  split
  · exact h
  · split
    · exact h
    · exact pcRel_upsert_new h p t (aupsert_ne_nil _ _ _)

theorem prepare_txn_nodup (c : Nat) (n : Int) (s : LedgerState) (p t : Int)
    (tb : TabletInfo) (l : PUniqueId) (i : Bool)
    (h : (s.tabletMap.map Prod.fst).Nodup) :
    ((prepare_txn c n s p t tb l i).2.tabletMap.map Prod.fst).Nodup := by
  simp only [prepare_txn]
  split
  · exact h
  · split
    · exact h
    · exact nodup_keys_aupsert _ _ h

theorem commit_txn_pcRel (sv : Bool) (n : Int) (s : LedgerState) (p t : Int)
    (tb : TabletInfo) (l : PUniqueId) (ra : Option Rowset) (ir rm : Bool)
    (h : partitionConsistent s) :
    partitionConsistent (commit_txn sv n s p t tb l ra ir rm).2 := by
  simp only [commit_txn]
  split
  · exact h
  · split
    · exact h
    · split
      · exact h
      · exact h
      · split
        · exact h
        · exact pcRel_upsert_new h p t (aupsert_ne_nil _ _ _)

theorem commit_txn_nodup (sv : Bool) (n : Int) (s : LedgerState) (p t : Int)
    (tb : TabletInfo) (l : PUniqueId) (ra : Option Rowset) (ir rm : Bool)
    (h : (s.tabletMap.map Prod.fst).Nodup) :
    ((commit_txn sv n s p t tb l ra ir rm).2.tabletMap.map Prod.fst).Nodup := by
  simp only [commit_txn]
  split
  · exact h
  · split
    · exact h
    · split
      · exact h
      · exact h
      · split
        · exact h
        · exact nodup_keys_aupsert _ _ h

theorem rollback_txn_pcRel (s : LedgerState) (p t : Int) (tb : TabletInfo)
    (h : partitionConsistent s) : partitionConsistent (rollback_txn s p t tb).2 := by
  simp only [rollback_txn]
  cases hl : alookup s.tabletMap (p, t) with
  | none => exact h
  | some tm =>
    dsimp only
    by_cases hcom : rowsetCommitted tm tb = true
    · rw [if_pos hcom]
      exact h
    · rw [if_neg hcom]
      by_cases hemp : aerase tm tb = []
      · rw [if_pos hemp]
        exact pcRel_erase_clear h p t
      · rw [if_neg hemp]
        exact pcRel_upsert_existing h hl (aerase_ne_nil_src hemp) hemp

theorem rollback_txn_nodup (s : LedgerState) (p t : Int) (tb : TabletInfo)
    (h : (s.tabletMap.map Prod.fst).Nodup) :
    ((rollback_txn s p t tb).2.tabletMap.map Prod.fst).Nodup := by
  simp only [rollback_txn]
  cases hl : alookup s.tabletMap (p, t) with
  | none => exact h
  | some tm =>
    dsimp only
    by_cases hcom : rowsetCommitted tm tb = true
    · rw [if_pos hcom]
      exact h
    · rw [if_neg hcom]
      by_cases hemp : aerase tm tb = []
      · rw [if_pos hemp]
        exact nodup_keys_aerase _ h
      · rw [if_neg hemp]
        exact nodup_keys_aupsert _ _ h

theorem delete_txn_pcRel (mp : Bool) (s : LedgerState) (p t : Int) (tb : TabletInfo)
    (h : partitionConsistent s) : partitionConsistent (delete_txn mp s p t tb).2 := by
  simp only [delete_txn]
  cases hl : alookup s.tabletMap (p, t) with
  | none => exact h
  | some tm =>
    dsimp only
    by_cases hcom : deletePublished mp tm tb = true
    · rw [if_pos hcom]
      exact h
    · rw [if_neg hcom]
      by_cases hemp : aerase tm tb = []
      · rw [if_pos hemp]
        exact pcRel_erase_clear h p t
      · rw [if_neg hemp]
        exact pcRel_upsert_existing h hl (aerase_ne_nil_src hemp) hemp

theorem delete_txn_nodup (mp : Bool) (s : LedgerState) (p t : Int) (tb : TabletInfo)
    (h : (s.tabletMap.map Prod.fst).Nodup) :
    ((delete_txn mp s p t tb).2.tabletMap.map Prod.fst).Nodup := by
  simp only [delete_txn]
  cases hl : alookup s.tabletMap (p, t) with
  | none => exact h
  | some tm =>
    dsimp only
    by_cases hcom : deletePublished mp tm tb = true
    · rw [if_pos hcom]
      exact h
    · rw [if_neg hcom]
      by_cases hemp : aerase tm tb = []
      · rw [if_pos hemp]
        exact nodup_keys_aerase _ h
      · rw [if_neg hemp]
        exact nodup_keys_aupsert _ _ h

theorem publishFinish_pcRel (env : PublishEnv) (s1 : LedgerState) (p t : Int)
    (tb : TabletInfo) (rid : Nat) (tr : List Event) (h : partitionConsistent s1) :
    partitionConsistent (publishFinish env s1 p t tb rid tr).2.1 := by
  simp only [publishFinish]
  by_cases hb : (env.enableBinlog && !env.binlogOk) = true
  · rw [if_pos hb]
    exact h
  · rw [if_neg hb]
    by_cases hs : (!env.saveOk) = true
    · rw [if_pos hs]
      exact h
    · rw [if_neg hs]
      cases hl : alookup s1.tabletMap (p, t) with
      | none => exact h
      | some tm =>
        dsimp only
        by_cases hemp : aerase tm tb = []
        · rw [if_pos hemp]
          exact pcRel_erase_clear h p t
        · rw [if_neg hemp]
          exact pcRel_upsert_existing h hl (aerase_ne_nil_src hemp) hemp

theorem publishFinish_nodup (env : PublishEnv) (s1 : LedgerState) (p t : Int)
    (tb : TabletInfo) (rid : Nat) (tr : List Event)
    (h : (s1.tabletMap.map Prod.fst).Nodup) :
    ((publishFinish env s1 p t tb rid tr).2.1.tabletMap.map Prod.fst).Nodup := by
  simp only [publishFinish]
  by_cases hb : (env.enableBinlog && !env.binlogOk) = true
  · rw [if_pos hb]
    exact h
  · rw [if_neg hb]
    by_cases hs : (!env.saveOk) = true
    · rw [if_pos hs]
      exact h
    · rw [if_neg hs]
      cases hl : alookup s1.tabletMap (p, t) with
      | none => exact h
      | some tm =>
        dsimp only
        by_cases hemp : aerase tm tb = []
        · rw [if_pos hemp]
          exact nodup_keys_aerase _ h
        · rw [if_neg hemp]
          exact nodup_keys_aupsert _ _ h

theorem lookup2_decomp {s : LedgerState} {key : TxnKey} {tab : TabletInfo}
    {info : TabletTxnInfo} (h : lookup2 s key tab = some info) :
    ∃ tm, alookup s.tabletMap key = some tm ∧ alookup tm tab = some info := by
  unfold lookup2 at h
  cases hmt : alookup s.tabletMap key with
  | none =>
    rw [hmt] at h
    simp at h
  | some tm =>
    rw [hmt] at h
    simp only [Option.some_bind] at h
    exact ⟨tm, rfl, h⟩

theorem publish_txn_pcRel (env : PublishEnv) (s : LedgerState) (p t : Int)
    (tb : TabletInfo) (v : Version) (h : partitionConsistent s) :
    partitionConsistent (publish_txn env s p t tb v).2.1 := by
  simp only [publish_txn]
  by_cases hte : env.tabletExists = false
  · rw [if_pos hte]
    exact h
  · rw [if_neg hte]
    cases hl2 : lookup2 s (p, t) tb with
    | none => exact h
    | some info =>
      dsimp only
      cases hr : info.rowset with
      | none => exact h
      | some r =>
        dsimp only
        obtain ⟨tm, htm, htab⟩ := lookup2_decomp hl2
        have h1 := pcRel_upsert_existing h htm (alookup_isSome_ne_nil htab)
          (aupsert_ne_nil ((alookup s.tabletMap (p, t)).getD []) tb
            { info with rowset := some { r with version := v } })
        by_cases hm : info.unique_key_merge_on_write = true
        · rw [if_pos hm]
          by_cases hu : env.updateDeleteBitmapStatus ≠ Status.ok
          · rw [if_pos hu]
            exact h1
          · rw [if_neg hu]
            by_cases hp : env.isPartialUpdate = true ∧ env.flushStatus ≠ Status.ok
            · rw [if_pos hp]
              exact h1
            · rw [if_neg hp]
              exact publishFinish_pcRel env _ p t tb _ _ h1
        · rw [if_neg hm]
          exact publishFinish_pcRel env _ p t tb _ _ h1

theorem publish_txn_nodup (env : PublishEnv) (s : LedgerState) (p t : Int)
    (tb : TabletInfo) (v : Version) (h : (s.tabletMap.map Prod.fst).Nodup) :
    ((publish_txn env s p t tb v).2.1.tabletMap.map Prod.fst).Nodup := by
  simp only [publish_txn]
  by_cases hte : env.tabletExists = false
  · rw [if_pos hte]
    exact h
  · rw [if_neg hte]
    cases hl2 : lookup2 s (p, t) tb with
    | none => exact h
    | some info =>
      dsimp only
      cases hr : info.rowset with
      | none => exact h
      | some r =>
        dsimp only
        have h1 : (((aupsert s.tabletMap (p, t)
            (aupsert ((alookup s.tabletMap (p, t)).getD []) tb
              { info with rowset := some { r with version := v } })).map Prod.fst)).Nodup :=
          nodup_keys_aupsert _ _ h
        by_cases hm : info.unique_key_merge_on_write = true
        · rw [if_pos hm]
          by_cases hu : env.updateDeleteBitmapStatus ≠ Status.ok
          · rw [if_pos hu]
            exact h1
          · rw [if_neg hu]
            by_cases hp : env.isPartialUpdate = true ∧ env.flushStatus ≠ Status.ok
            · rw [if_pos hp]
              exact h1
            · rw [if_neg hp]
              exact publishFinish_nodup env _ p t tb _ _ h1
        · rw [if_neg hm]
          exact publishFinish_nodup env _ p t tb _ _ h1

/-! Characterisation of the force-rollback sweep. -/

theorem forceRollbackAux_fst (mp : Bool) (tb : TabletInfo)
    (M : List (TxnKey × List (TabletInfo × TabletTxnInfo))) :
    ∀ (pm : List (Int × List Int)) (ms : List (Nat × Nat)),
      (forceRollbackAux mp tb M pm ms).1 = procMap tb M := by
  induction M with
  | nil =>
    intro pm ms
    rfl
  | cons hd rest ih =>
    intro pm ms
    obtain ⟨key, tm⟩ := hd
    simp only [forceRollbackAux, procMap]
    by_cases hemp : procInner tb tm = []
    · rw [if_pos hemp, if_pos hemp]
      exact ih _ _
    · rw [if_neg hemp, if_neg hemp]
      dsimp only
      rw [ih _ _]

theorem forceRollbackAux_pm (mp : Bool) (tb : TabletInfo)
    (M : List (TxnKey × List (TabletInfo × TabletTxnInfo))) :
    ∀ (pm : List (Int × List Int)) (ms : List (Nat × Nat)),
      (forceRollbackAux mp tb M pm ms).2.1 = foldClear pm (droppedKeys tb M) := by
  induction M with
  | nil =>
    intro pm ms
    rfl
  | cons hd rest ih =>
    intro pm ms
    obtain ⟨key, tm⟩ := hd
    simp only [forceRollbackAux, droppedKeys]
    by_cases hemp : procInner tb tm = []
    · rw [if_pos hemp, if_pos hemp]
      rw [ih _ _]
      rfl
    · rw [if_neg hemp, if_neg hemp]
      dsimp only
      exact ih _ _

theorem mem_pmSet_foldClear (ks : List TxnKey) :
    ∀ (pm : List (Int × List Int)) (t p : Int),
      p ∈ pmSet (foldClear pm ks) t ↔ p ∈ pmSet pm t ∧ (p, t) ∉ ks := by
  induction ks with
  | nil =>
    intro pm t p
    simp [foldClear]
  | cons k ks ih =>
    intro pm t p
    obtain ⟨k1, k2⟩ := k
    simp only [foldClear]
    rw [ih, mem_pmSet_clearPartition]
    simp only [List.mem_cons, not_or, Prod.mk.injEq]
    constructor
    · rintro ⟨⟨hmem, hne⟩, hnot⟩
      exact ⟨hmem, fun hc => hne ⟨hc.2, hc.1⟩, hnot⟩
    · rintro ⟨hmem, hne, hnot⟩
      exact ⟨⟨hmem, fun hc => hne ⟨hc.2, hc.1⟩⟩, hnot⟩

theorem keys_procMap_sublist (tb : TabletInfo)
    (M : List (TxnKey × List (TabletInfo × TabletTxnInfo))) :
    List.Sublist ((procMap tb M).map Prod.fst) (M.map Prod.fst) := by
  induction M with
  | nil => simp [procMap]
  | cons hd rest ih =>
    obtain ⟨key, tm⟩ := hd
    simp only [procMap]
    by_cases hemp : procInner tb tm = []
    · rw [if_pos hemp]
      exact ih.trans (List.sublist_cons_self _ _)
    · rw [if_neg hemp]
      simpa using ih.cons₂ key

theorem alookup_procMap (tb : TabletInfo)
    (M : List (TxnKey × List (TabletInfo × TabletTxnInfo)))
    (hnd : (M.map Prod.fst).Nodup) (k : TxnKey) :
    alookup (procMap tb M) k =
      (alookup M k).bind
        (fun tm => if procInner tb tm = [] then none else some (procInner tb tm)) := by
  induction M with
  | nil => rfl
  | cons hd rest ih =>
    obtain ⟨k0, tm⟩ := hd
    simp only [List.map_cons, List.nodup_cons] at hnd
    obtain ⟨hk0, hnd2⟩ := hnd
    simp only [procMap, alookup_cons]
    by_cases hemp : procInner tb tm = []
    · rw [if_pos hemp]
      by_cases hkk : k0 = k
      · subst hkk
        rw [ih hnd2, alookup_eq_none_of_not_mem_keys hk0]
        simp [hemp]
      · rw [ih hnd2]
        simp [alookup_cons, hkk]
    · rw [if_neg hemp]
      by_cases hkk : k0 = k
      · subst hkk
        rw [alookup_cons, if_pos rfl]
        simp [hemp]
      · rw [alookup_cons, if_neg hkk, ih hnd2]
        simp [hkk]

theorem procInner_nil (tb : TabletInfo) : procInner tb [] = [] := rfl

theorem procInner_ne_nil_src {tb : TabletInfo} {tm : List (TabletInfo × TabletTxnInfo)}
    (h : procInner tb tm ≠ []) : tm ≠ [] := by
  intro hnil
  subst hnil
  exact h (procInner_nil tb)

theorem mem_keys_of_mem_droppedKeys (tb : TabletInfo)
    (M : List (TxnKey × List (TabletInfo × TabletTxnInfo))) {k : TxnKey}
    (h : k ∈ droppedKeys tb M) : k ∈ M.map Prod.fst := by
  induction M with
  | nil => simp [droppedKeys] at h
  | cons hd rest ih =>
    obtain ⟨k0, tm⟩ := hd
    simp only [droppedKeys] at h
    simp only [List.map_cons, List.mem_cons]
    by_cases hemp : procInner tb tm = []
    · rw [if_pos hemp] at h
      rcases List.mem_cons.1 h with rfl | hmem
      · exact Or.inl rfl
      · exact Or.inr (ih hmem)
    · rw [if_neg hemp] at h
      exact Or.inr (ih h)

theorem mem_droppedKeys (tb : TabletInfo)
    (M : List (TxnKey × List (TabletInfo × TabletTxnInfo)))
    (hnd : (M.map Prod.fst).Nodup) (k : TxnKey) :
    k ∈ droppedKeys tb M ↔ ∃ tm, alookup M k = some tm ∧ procInner tb tm = [] := by
  induction M with
  | nil => simp [droppedKeys, alookup]
  | cons hd rest ih =>
    obtain ⟨k0, tm⟩ := hd
    simp only [List.map_cons, List.nodup_cons] at hnd
    obtain ⟨hk0, hnd2⟩ := hnd
    simp only [droppedKeys, alookup_cons]
    by_cases hkk : k0 = k
    · subst hkk
      constructor
      · intro h
        by_cases hemp : procInner tb tm = []
        · exact ⟨tm, by rw [if_pos rfl], hemp⟩
        · rw [if_neg hemp] at h
          exact absurd (mem_keys_of_mem_droppedKeys tb rest h) hk0
      · rintro ⟨tm2, hlk2, hemp2⟩
        rw [if_pos rfl] at hlk2
        injection hlk2 with he
        subst he
        rw [if_pos hemp2]
        exact List.mem_cons_self _ _
    · have hiff := ih hnd2
      by_cases hemp : procInner tb tm = []
      · rw [if_pos hemp]
        constructor
        · intro h
          rcases List.mem_cons.1 h with heq | hmem
          · exact absurd heq.symm hkk
          · obtain ⟨tm2, hlk2, hemp2⟩ := hiff.1 hmem
            exact ⟨tm2, by rw [if_neg hkk]; exact hlk2, hemp2⟩
        · rintro ⟨tm2, hlk2, hemp2⟩
          rw [if_neg hkk] at hlk2
          exact List.mem_cons_of_mem _ (hiff.2 ⟨tm2, hlk2, hemp2⟩)
      · rw [if_neg hemp]
        constructor
        · intro h
          obtain ⟨tm2, hlk2, hemp2⟩ := hiff.1 h
          exact ⟨tm2, by rw [if_neg hkk]; exact hlk2, hemp2⟩
        · rintro ⟨tm2, hlk2, hemp2⟩
          rw [if_neg hkk] at hlk2
          exact hiff.2 ⟨tm2, hlk2, hemp2⟩

theorem force_rollback_pcRel (mp : Bool) (tb : TabletInfo) (s : LedgerState)
    (hnd : (s.tabletMap.map Prod.fst).Nodup) (h : partitionConsistent s) :
    partitionConsistent (force_rollback_tablet_related_txns mp s tb) := by
  unfold force_rollback_tablet_related_txns partitionConsistent
  dsimp only
  rw [forceRollbackAux_fst, forceRollbackAux_pm]
  intro tid pid
  rw [mem_pmSet_foldClear, alookup_procMap tb _ hnd]
  constructor
  · rintro ⟨hmem, hnotdrop⟩
    obtain ⟨tm, hlk, hne⟩ := (h tid pid).1 hmem
    have hproc : procInner tb tm ≠ [] := fun hemp =>
      hnotdrop ((mem_droppedKeys tb _ hnd _).2 ⟨tm, hlk, hemp⟩)
    refine ⟨procInner tb tm, ?_, hproc⟩
    rw [hlk]
    simp [hproc]
  · rintro ⟨tm1, hlk1, hne1⟩
    cases hlk : alookup s.tabletMap (pid, tid) with
    | none =>
      rw [hlk] at hlk1
      simp at hlk1
    | some tm =>
      rw [hlk] at hlk1
      simp only [Option.some_bind] at hlk1
      by_cases hemp : procInner tb tm = []
      · rw [if_pos hemp] at hlk1
        exact absurd hlk1 (by simp)
      · refine ⟨(h tid pid).2 ⟨tm, hlk, procInner_ne_nil_src hemp⟩, ?_⟩
        intro hdrop
        obtain ⟨tm2, hlk2, hemp2⟩ := (mem_droppedKeys tb _ hnd _).1 hdrop
        rw [hlk] at hlk2
        injection hlk2 with he
        subst he
        exact hemp hemp2

theorem force_rollback_nodup (mp : Bool) (tb : TabletInfo) (s : LedgerState)
    (hnd : (s.tabletMap.map Prod.fst).Nodup) :
    ((force_rollback_tablet_related_txns mp s tb).tabletMap.map Prod.fst).Nodup := by
  unfold force_rollback_tablet_related_txns
  dsimp only
  rw [forceRollbackAux_fst]
  exact hnd.sublist (keys_procMap_sublist tb s.tabletMap)

/-! Claims. -/

/-- Claim C10 (confirmed): every ledger mutation (prepare, commit, publish, rollback, delete,
force-rollback-for-tablet) preserves the consistency of the per-shard partition index with
the transaction map — a transaction id maps to a partition id in the partition index exactly
when the transaction map holds a non-empty tablet map under `(partition_id, transaction_id)`
— together with uniqueness of the transaction-map keys (which the C++ `std::map` guarantees
structurally). -/
theorem c10_partition_index_consistency (op : LedgerOp) (s : LedgerState)
    (hnd : (s.tabletMap.map Prod.fst).Nodup) (h : partitionConsistent s) :
    ((applyOp op s).tabletMap.map Prod.fst).Nodup ∧ partitionConsistent (applyOp op s) := by
  cases op with
  | prep c n p t tb l i =>
    exact ⟨prepare_txn_nodup c n s p t tb l i hnd, prepare_txn_pcRel c n s p t tb l i h⟩
  | commit sv n p t tb l ra ir rm =>
    exact ⟨commit_txn_nodup sv n s p t tb l ra ir rm hnd,
      commit_txn_pcRel sv n s p t tb l ra ir rm h⟩
  | publish env p t tb v =>
    exact ⟨publish_txn_nodup env s p t tb v hnd, publish_txn_pcRel env s p t tb v h⟩
  | rollback p t tb =>
    exact ⟨rollback_txn_nodup s p t tb hnd, rollback_txn_pcRel s p t tb h⟩
  | del mp p t tb =>
    exact ⟨delete_txn_nodup mp s p t tb hnd, delete_txn_pcRel mp s p t tb h⟩
  | forceRollback mp tb =>
    exact ⟨force_rollback_nodup mp tb s hnd, force_rollback_pcRel mp tb s hnd h⟩

/-- Witness for C10: both invariant hypotheses hold at the empty shard, and a concrete
prepare preserves them. -/
theorem c10_partition_index_consistency_witness :
    ((applyOp (LedgerOp.prep 10 0 1 1 tab0 loadA false) emptyLedger).tabletMap.map
        Prod.fst).Nodup ∧
      partitionConsistent (applyOp (LedgerOp.prep 10 0 1 1 tab0 loadA false) emptyLedger) :=
  c10_partition_index_consistency (LedgerOp.prep 10 0 1 1 tab0 loadA false) emptyLedger
    (by simp [emptyLedger])
    (by
      intro tid pid
      simp [emptyLedger, pmSet, alookup])

theorem alookup_aupsert_self {α β : Type} [DecidableEq α] (l : List (α × β)) (a : α) (b : β) :
    alookup (aupsert l a b) a = some b := by
  rw [alookup_aupsert, if_pos rfl]

theorem insertPartition_idem (pm : List (Int × List Int)) (tid pid : Int) :
    insertPartition (insertPartition pm tid pid) tid pid = insertPartition pm tid pid := by
  unfold insertPartition
  dsimp only
  rw [alookup_aupsert_self]
  simp only [Option.getD_some]
  have hmem : pid ∈ (if pid ∈ (alookup pm tid).getD [] then (alookup pm tid).getD []
      else pid :: (alookup pm tid).getD []) := by
    by_cases hp : pid ∈ (alookup pm tid).getD []
    · rw [if_pos hp]
      exact hp
    · rw [if_neg hp]
      exact List.mem_cons_self _ _
  rw [if_pos hmem, aupsert_aupsert]

theorem publishFinish_trace (env : PublishEnv) (s1 : LedgerState) (p t : Int)
    (tb : TabletInfo) (rid : Nat) (tr : List Event) (hb : env.enableBinlog = true) :
    (publishFinish env s1 p t tb rid tr).2.2 = tr ++ [Event.binlogAdd] ∨
      (publishFinish env s1 p t tb rid tr).2.2 = tr ++ [Event.binlogAdd, Event.metaSave] := by
  simp only [publishFinish, hb, if_pos rfl, Bool.true_and]
  by_cases hbo : (!env.binlogOk) = true
  · rw [if_pos hbo]
    exact Or.inl rfl
  · rw [if_neg hbo]
    by_cases hs : (!env.saveOk) = true
    · rw [if_pos hs]
      right
      simp
    · rw [if_neg hs]
      cases alookup s1.tabletMap (p, t) with
      | none =>
        right
        simp
      | some tm =>
        dsimp only
        by_cases hemp : aerase tm tb = []
        · rw [if_pos hemp]
          right
          simp
        · rw [if_neg hemp]
          right
          simp

theorem publishFinish_binlog_fail (env : PublishEnv) (s1 : LedgerState) (p t : Int)
    (tb : TabletInfo) (rid : Nat) (tr : List Event) (hb : env.enableBinlog = true)
    (hbo : env.binlogOk = false) :
    publishFinish env s1 p t tb rid tr =
      (Status.rowsetAddToBinlogFailed, s1, tr ++ [Event.binlogAdd]) := by
  simp [publishFinish, hb, hbo]

theorem publish_trace_cases (env : PublishEnv) (s : LedgerState) (p t : Int)
    (tb : TabletInfo) (v : Version) (hb : env.enableBinlog = true) :
    (publish_txn env s p t tb v).2.2 = [] ∨
      (publish_txn env s p t tb v).2.2 = [Event.makeVisible, Event.updateBitmap] ∨
      (publish_txn env s p t tb v).2.2 = [Event.makeVisible, Event.binlogAdd] ∨
      (publish_txn env s p t tb v).2.2 =
        [Event.makeVisible, Event.binlogAdd, Event.metaSave] ∨
      (publish_txn env s p t tb v).2.2 =
        [Event.makeVisible, Event.updateBitmap, Event.binlogAdd] ∨
      (publish_txn env s p t tb v).2.2 =
        [Event.makeVisible, Event.updateBitmap, Event.binlogAdd, Event.metaSave] := by
  simp only [publish_txn]
  by_cases hte : env.tabletExists = false
  · rw [if_pos hte]
    exact Or.inl rfl
  · rw [if_neg hte]
    cases hl2 : lookup2 s (p, t) tb with
    | none => exact Or.inl rfl
    | some info =>
      dsimp only
      cases hr : info.rowset with
      | none => exact Or.inl rfl
      | some r =>
        dsimp only
        by_cases hm : info.unique_key_merge_on_write = true
        · rw [if_pos hm]
          by_cases hu : env.updateDeleteBitmapStatus ≠ Status.ok
          · rw [if_pos hu]
            exact Or.inr (Or.inl rfl)
          · rw [if_neg hu]
            by_cases hpf : env.isPartialUpdate = true ∧ env.flushStatus ≠ Status.ok
            · rw [if_pos hpf]
              exact Or.inr (Or.inl rfl)
            · rw [if_neg hpf]
              rcases publishFinish_trace env _ p t tb _ _ hb with htr | htr
              · rw [htr]
                right; right; right; right; left
                rfl
              · rw [htr]
                right; right; right; right; right
                rfl
        · rw [if_neg hm]
          rcases publishFinish_trace env _ p t tb _ _ hb with htr | htr
          · rw [htr]
            right; right; left
            rfl
          · rw [htr]
            right; right; right; left
            rfl

theorem publish_trace_shape (env : PublishEnv) (s : LedgerState) (p t : Int)
    (tb : TabletInfo) (v : Version) (hb : env.enableBinlog = true)
    (hmem : Event.metaSave ∈ (publish_txn env s p t tb v).2.2) :
    (publish_txn env s p t tb v).2.2 = [Event.makeVisible, Event.binlogAdd, Event.metaSave] ∨
      (publish_txn env s p t tb v).2.2 =
        [Event.makeVisible, Event.updateBitmap, Event.binlogAdd, Event.metaSave] := by
  rcases publish_trace_cases env s p t tb v hb with h | h | h | h | h | h <;> rw [h] at hmem ⊢
  · exact absurd hmem (by decide)
  · exact absurd hmem (by decide)
  · exact absurd hmem (by decide)
  · exact Or.inl rfl
  · exact absurd hmem (by decide)
  · exact Or.inr rfl

theorem publish_binlog_fail (env : PublishEnv) (s : LedgerState) (p t : Int)
    (tb : TabletInfo) (v : Version) (hb : env.enableBinlog = true)
    (hte : env.tabletExists = true) (hbo : env.binlogOk = false) (info : TabletTxnInfo)
    (r : Rowset) (hlk : lookup2 s (p, t) tb = some info) (hrow : info.rowset = some r)
    (hmow : info.unique_key_merge_on_write = true →
      env.updateDeleteBitmapStatus = Status.ok ∧
        (env.isPartialUpdate = true → env.flushStatus = Status.ok)) :
    (publish_txn env s p t tb v).1 = Status.rowsetAddToBinlogFailed ∧
      (publish_txn env s p t tb v).2.1.metaStore = s.metaStore ∧
      lookup2 (publish_txn env s p t tb v).2.1 (p, t) tb =
        some { info with rowset := some { r with version := v } } := by
  have hte2 : ¬(env.tabletExists = false) := by simp [hte]
  simp only [publish_txn, if_neg hte2, hlk, hrow]
  have hfin :
      publishFinish env
          { s with
            tabletMap := aupsert s.tabletMap (p, t)
              (aupsert ((alookup s.tabletMap (p, t)).getD []) tb
                { info with rowset := some { r with version := v } }) }
          p t tb (Rowset.rowset_id { r with version := v }) =
        fun tr => (Status.rowsetAddToBinlogFailed,
          { s with
            tabletMap := aupsert s.tabletMap (p, t)
              (aupsert ((alookup s.tabletMap (p, t)).getD []) tb
                { info with rowset := some { r with version := v } }) },
          tr ++ [Event.binlogAdd]) := by
    funext tr
    exact publishFinish_binlog_fail env _ p t tb _ tr hb hbo
  have hside :
      lookup2
          { s with
            tabletMap := aupsert s.tabletMap (p, t)
              (aupsert ((alookup s.tabletMap (p, t)).getD []) tb
                { info with rowset := some { r with version := v } }) }
          (p, t) tb = some { info with rowset := some { r with version := v } } := by
    unfold lookup2
    dsimp only
    rw [alookup_aupsert_self]
    simp only [Option.some_bind]
    rw [alookup_aupsert_self]
  by_cases hm : info.unique_key_merge_on_write = true
  · obtain ⟨hu, hf⟩ := hmow hm
    rw [if_pos hm]
    have hu2 : ¬(env.updateDeleteBitmapStatus ≠ Status.ok) := by simp [hu]
    rw [if_neg hu2]
    have hpf : ¬(env.isPartialUpdate = true ∧ env.flushStatus ≠ Status.ok) := by
      rintro ⟨h1, h2⟩
      exact h2 (hf h1)
    rw [if_neg hpf]
    rw [congrFun hfin [Event.makeVisible, Event.updateBitmap]]
    exact ⟨rfl, rfl, hside⟩
  · rw [if_neg hm]
    rw [congrFun hfin [Event.makeVisible]]
    exact ⟨rfl, rfl, hside⟩

/-- Counterexample to claim C1: with slot count 2, one cumulative task already submitted and
an eligible best candidate, the per-directory admission of `_generate_compaction_tasks`
ACCEPTS a new base-compaction pick on the last remaining slot (the claim states it is
rejected); the cumulative pick is accepted as claimed. -/
theorem c1_counterexample_base_pick_accepted :
    generate_compaction_tasks_for_dir CompactionType.base 2 false false (some 9) false
        { cumuSubmitted := [7], baseSubmitted := [] } = some 9 ∧
      ¬(generate_compaction_tasks_for_dir CompactionType.base 2 false false (some 9) false
          { cumuSubmitted := [7], baseSubmitted := [] } = none) ∧
      generate_compaction_tasks_for_dir CompactionType.cumulative 2 false false (some 9)
          false { cumuSubmitted := [7], baseSubmitted := [] } = some 9 := by
  decide

/-- Claim C1 (corrected): on a data directory with exactly one free slot an eligible
cumulative pick is always allowed, while a base pick is allowed exactly when at least one
cumulative task is currently submitted on that directory — the source reserves the last slot
for cumulative work only while NO cumulative task is running, the opposite guard of the
claim.  In the claim's scenario (slot count 2, one cumulative task running) both the base and
the cumulative pick are accepted. -/
theorem c1_last_slot_pick_policy (d : DirState) (threadPerDisk : Nat) (checkScore : Bool)
    (tb : Int)
    (hslot : d.cumuSubmitted.length + d.baseSubmitted.length + 1 = threadPerDisk) :
    generate_compaction_tasks_for_dir CompactionType.cumulative threadPerDisk checkScore
        false (some tb) false d = some tb ∧
      generate_compaction_tasks_for_dir CompactionType.base threadPerDisk checkScore false
        (some tb) false d = (if d.cumuSubmitted.isEmpty then none else some tb) := by
  have hlt : ¬(d.cumuSubmitted.length + d.baseSubmitted.length ≥ threadPerDisk) := by omega
  have hge : d.cumuSubmitted.length + d.baseSubmitted.length ≥ threadPerDisk - 1 := by omega
  constructor
  · simp [generate_compaction_tasks_for_dir, hlt, hge]
  · by_cases hc : d.cumuSubmitted.isEmpty
    · simp [generate_compaction_tasks_for_dir, hlt, hge, hc]
    · simp [generate_compaction_tasks_for_dir, hlt, hge, hc]

/-- Witness for C1 (amended): the scenario of the claim, slot count 2 with one cumulative
task running — both picks are accepted. -/
theorem c1_last_slot_pick_policy_witness :
    generate_compaction_tasks_for_dir CompactionType.cumulative 2 false false (some 9) false
        { cumuSubmitted := [7], baseSubmitted := [] } = some 9 ∧
      generate_compaction_tasks_for_dir CompactionType.base 2 false false (some 9) false
        { cumuSubmitted := [7], baseSubmitted := [] } =
        (if ({ cumuSubmitted := [7], baseSubmitted := [] } : DirState).cumuSubmitted.isEmpty
          then none else some 9) :=
  c1_last_slot_pick_policy { cumuSubmitted := [7], baseSubmitted := [] } 2 false 9 (by decide)

/-- Claim C8 (code bug): a `force` submission with a successful permit calculation skips
`PermitLimiter::request` (the request is guarded by `!force`) but still releases the permits
in the in-pool closure, so the run releases 5 permits while having requested none — a release
that was never requested, contradicting the claim and §4.2/§7 of the spec (force compactions
bypass the limiter entirely; every release pairs a prior request). -/
theorem c8_force_release_without_request :
    submit_compaction_task true false Status.ok 5 true =
      { status := Status.ok, requests := [], releases := [5] } := by
  decide

/-- Claim C2 (confirmed): for a ledger entry already holding a rowset, a commit with the same
`load_id` and the identical rowset id returns success and leaves the shard unchanged, while a
commit with the same `load_id` but a different rowset id returns the conflicting-duplicate
error `pushTransactionAlreadyExist` and also leaves the shard — in particular the stored
rowset and the rest of the entry — unchanged. -/
theorem c2_commit_idempotent_and_conflict (saveOk : Bool) (now : Int) (s : LedgerState)
    (p t : Int) (tb : TabletInfo) (l : PUniqueId) (info : TabletTxnInfo) (r r2 : Rowset)
    (ir rm : Bool) (hp : 1 ≤ p) (ht : 1 ≤ t) (hid : 1 ≤ tb.tablet_id)
    (hlk : lookup2 s (p, t) tb = some info) (hload : info.load_id = l)
    (hrow : info.rowset = some r) :
    (r2.rowset_id = r.rowset_id →
        commit_txn saveOk now s p t tb l (some r2) ir rm = (Status.ok, s)) ∧
      (r2.rowset_id ≠ r.rowset_id →
        commit_txn saveOk now s p t tb l (some r2) ir rm =
          (Status.pushTransactionAlreadyExist, s)) := by
  have hvalid : ¬(p < 1 ∨ t < 1 ∨ tb.tablet_id < 1) := by omega
  constructor
  · intro hsame
    have hsame2 : r.rowset_id = r2.rowset_id := hsame.symm
    simp [commit_txn, hvalid, hlk, hrow, hload, hsame2]
  · intro hdiff
    have hdiff2 : ¬(r.rowset_id = r2.rowset_id) := fun hh => hdiff hh.symm
    simp [commit_txn, hvalid, hlk, hrow, hload, hdiff2]

/-- Witness for C2: in a shard holding the committed entry `(tab0, infoA)` with rowset
`rowA`, re-committing `rowA` succeeds unchanged and committing `rowB` (different id)
conflicts unchanged. -/
theorem c2_commit_idempotent_and_conflict_witness :
    commit_txn true 0 sCommitted 1 1 tab0 loadA (some rowA) false false =
        (Status.ok, sCommitted) ∧
      commit_txn true 0 sCommitted 1 1 tab0 loadA (some rowB) false false =
        (Status.pushTransactionAlreadyExist, sCommitted) :=
  ⟨(c2_commit_idempotent_and_conflict true 0 sCommitted 1 1 tab0 loadA infoA rowA rowA false
      false (by decide) (by decide) (by decide) (by decide) rfl rfl).1 rfl,
    (c2_commit_idempotent_and_conflict true 0 sCommitted 1 1 tab0 loadA infoA rowA rowB false
      false (by decide) (by decide) (by decide) (by decide) rfl rfl).2 (by decide)⟩

/-- Claim C3 (confirmed): with binlog replication enabled, whenever the final
rowset-metadata save happens its trace position is immediately after the binlog append (the
only traces containing `metaSave` put `binlogAdd` right before it); and when the binlog
append fails, publish returns the binlog failure, the meta store is untouched, and the ledger
entry is still present holding the same rowset (only its in-memory version field was set by
the earlier make-visible step), so publish can be retried. -/
theorem c3_binlog_before_meta_save (env : PublishEnv) (s : LedgerState) (p t : Int)
    (tb : TabletInfo) (v : Version) (hb : env.enableBinlog = true) :
    (Event.metaSave ∈ (publish_txn env s p t tb v).2.2 →
        (publish_txn env s p t tb v).2.2 =
            [Event.makeVisible, Event.binlogAdd, Event.metaSave] ∨
          (publish_txn env s p t tb v).2.2 =
            [Event.makeVisible, Event.updateBitmap, Event.binlogAdd, Event.metaSave]) ∧
      (env.tabletExists = true → env.binlogOk = false →
        ∀ info r, lookup2 s (p, t) tb = some info → info.rowset = some r →
          (info.unique_key_merge_on_write = true →
            env.updateDeleteBitmapStatus = Status.ok ∧
              (env.isPartialUpdate = true → env.flushStatus = Status.ok)) →
          (publish_txn env s p t tb v).1 = Status.rowsetAddToBinlogFailed ∧
            (publish_txn env s p t tb v).2.1.metaStore = s.metaStore ∧
            lookup2 (publish_txn env s p t tb v).2.1 (p, t) tb =
              some { info with rowset := some { r with version := v } }) := by
  refine ⟨fun hmem => publish_trace_shape env s p t tb v hb hmem, ?_⟩
  intro hte hbo info r hlk hrow hmow
  exact publish_binlog_fail env s p t tb v hb hte hbo info r hlk hrow hmow

/-- Witness for C3: publishing the committed entry with a failing binlog append returns the
binlog failure, leaves the meta store empty and keeps the entry with rowset id 100 at the
target version. -/
theorem c3_binlog_before_meta_save_witness :
    (publish_txn envBinlogFail sCommitted 1 1 tab0 { first := 2, second := 0 }).1 =
        Status.rowsetAddToBinlogFailed ∧
      (publish_txn envBinlogFail sCommitted 1 1 tab0
          { first := 2, second := 0 }).2.1.metaStore = sCommitted.metaStore ∧
      lookup2 (publish_txn envBinlogFail sCommitted 1 1 tab0
          { first := 2, second := 0 }).2.1 (1, 1) tab0 =
        some { infoA with rowset := some { rowA with version := { first := 2, second := 0 } } } :=
  (c3_binlog_before_meta_save envBinlogFail sCommitted 1 1 tab0
      { first := 2, second := 0 } rfl).2 rfl rfl infoA rowA (by decide) rfl
    (fun h => absurd h (by decide))

/-- Counterexample to claim C5: when the tablet manager does not know the tablet,
`publish_txn` returns success untouched even though no ledger entry with a non-null rowset
exists — it does not fail with `transactionNotExist` as the claim states for every publish
call. -/
theorem c5_counterexample_missing_tablet :
    publish_txn envNoTablet emptyLedger 1 1 tab0 { first := 2, second := 0 } =
        (Status.ok, emptyLedger, []) ∧
      ¬((publish_txn envNoTablet emptyLedger 1 1 tab0 { first := 2, second := 0 }).1 =
          Status.transactionNotExist) := by
  decide

/-- Claim C5 (corrected): provided the tablet is registered in the tablet manager, a publish
call finding no ledger entry with a non-null rowset under the (partition, transaction,
tablet) key fails with `transactionNotExist` and changes nothing; when the tablet is not
registered, publish instead returns success without doing anything. -/
theorem c5_publish_missing_entry (env : PublishEnv) (s : LedgerState) (p t : Int)
    (tb : TabletInfo) (v : Version) (hte : env.tabletExists = true)
    (hnone : (lookup2 s (p, t) tb).bind (fun i => i.rowset) = none) :
    publish_txn env s p t tb v = (Status.transactionNotExist, s, []) := by
  have hte2 : ¬(env.tabletExists = false) := by simp [hte]
  simp only [publish_txn, if_neg hte2]
  cases hl2 : lookup2 s (p, t) tb with
  | none => rfl
  | some info =>
    rw [hl2] at hnone
    simp only [Option.some_bind] at hnone
    dsimp only
    rw [hnone]

/-- Witness for C5 (amended): on the empty shard with the tablet registered, publish fails
with `transactionNotExist`. -/
theorem c5_publish_missing_entry_witness :
    publish_txn envAllOk emptyLedger 1 1 tab0 { first := 2, second := 0 } =
      (Status.transactionNotExist, emptyLedger, []) :=
  c5_publish_missing_entry envAllOk emptyLedger 1 1 tab0 { first := 2, second := 0 } rfl
    (by decide)

/-- Claim C6 (confirmed): deleting an entry whose rowset already has a real version
(`version.first > 0`) fails with `transactionAlreadyCommitted` and leaves the whole shard —
in particular the persisted meta-store entry — unchanged. -/
theorem c6_delete_published_rejected (s : LedgerState) (p t : Int) (tb : TabletInfo)
    (tm : List (TabletInfo × TabletTxnInfo)) (info : TabletTxnInfo) (r : Rowset)
    (htm : alookup s.tabletMap (p, t) = some tm) (htab : alookup tm tb = some info)
    (hrow : info.rowset = some r) (hv : r.version.first > 0) :
    delete_txn true s p t tb = (Status.transactionAlreadyCommitted, s) := by
  have hpub : deletePublished true tm tb = true := by
    simp [deletePublished, htab, hrow, hv]
  simp only [delete_txn, htm]
  rw [if_pos hpub]

/-- Witness for C6: deleting the published entry (rowset version (2, 0)) is refused
unchanged. -/
theorem c6_delete_published_rejected_witness :
    delete_txn true sPublished 1 1 tab0 = (Status.transactionAlreadyCommitted, sPublished) :=
  c6_delete_published_rejected sPublished 1 1 tab0 [(tab0, infoPub)] infoPub rowPub
    (by decide) (by decide) rfl (by decide)

/-- Counterexample to claim C9: a prepare call that is a duplicate of an already-committed
prepare (same `load_id`, populated rowset) returns success even though the shard's
transaction count (1) exceeds the ceiling (0) — it does not fail with
`tooManyTransactions` as the claim states for every prepare call. -/
theorem c9_counterexample_dup_committed_over_limit :
    prepare_txn 0 0 sCommitted 1 1 tab0 loadA false = (Status.ok, sCommitted) ∧
      ¬((prepare_txn 0 0 sCommitted 1 1 tab0 loadA false).1 = Status.tooManyTransactions) := by
  decide

/-- Claim C9 (corrected): a prepare call that is not a duplicate of an already-committed
prepare fails with `tooManyTransactions` and inserts nothing whenever the shard's
transaction-map size exceeds the configured ceiling; a duplicate-of-committed prepare
instead returns success first. -/
theorem c9_prepare_too_many_rejected (cfg : Nat) (now : Int) (s : LedgerState) (p t : Int)
    (tb : TabletInfo) (l : PUniqueId) (ing : Bool)
    (hdup : prepareDupCommitted s (p, t) tb l = false)
    (hlen : s.partitionMap.length > cfg) :
    prepare_txn cfg now s p t tb l ing = (Status.tooManyTransactions, s) := by
  simp [prepare_txn, hdup, hlen]

/-- Witness for C9 (amended): a second prepare of a merely prepared (uncommitted) entry over
a zero ceiling is rejected unchanged. -/
theorem c9_prepare_too_many_rejected_witness :
    prepare_txn 0 0 sPrepared 1 1 tab0 loadA false = (Status.tooManyTransactions, sPrepared) :=
  c9_prepare_too_many_rejected 0 0 sPrepared 1 1 tab0 loadA false (by decide) (by decide)

/-- Claim C4 (confirmed): rollback of an entry holding a rowset fails with
`transactionAlreadyCommitted` and leaves the whole shard unchanged; moreover no rollback call
(whatever its target) ever removes an entry that holds a rowset. -/
theorem c4_rollback_committed_rejected (s : LedgerState) (p t : Int) (tb : TabletInfo) :
    (∀ info r, lookup2 s (p, t) tb = some info → info.rowset = some r →
        rollback_txn s p t tb = (Status.transactionAlreadyCommitted, s)) ∧
      (∀ p2 t2 tb2 info r, lookup2 s (p2, t2) tb2 = some info → info.rowset = some r →
        lookup2 (rollback_txn s p t tb).2 (p2, t2) tb2 = some info) := by
  constructor
  · intro info r hlk hrow
    obtain ⟨tm, htm, htab⟩ := lookup2_decomp hlk
    have hcom : rowsetCommitted tm tb = true := by
      simp [rowsetCommitted, htab, hrow]
    simp only [rollback_txn, htm]
    rw [if_pos hcom]
  · intro p2 t2 tb2 info r hlk hrow
    obtain ⟨tm2, htm2, htab2⟩ := lookup2_decomp hlk
    simp only [rollback_txn]
    cases htm : alookup s.tabletMap (p, t) with
    | none => exact hlk
    | some tm =>
      dsimp only
      by_cases hcom : rowsetCommitted tm tb = true
      · rw [if_pos hcom]
        exact hlk
      · rw [if_neg hcom]
        by_cases hkey : ((p : Int), (t : Int)) = ((p2 : Int), (t2 : Int))
        · have htmeq : tm = tm2 := by
            rw [hkey] at htm
            rw [htm] at htm2
            injection htm2
          subst htmeq
          by_cases htb : tb = tb2
          · subst htb
            exact absurd (by simp [rowsetCommitted, htab2, hrow]) hcom
          · have htb2 : ¬(tb2 = tb) := fun hh => htb hh.symm
            have hsurv : alookup (aerase tm tb) tb2 = some info := by
              rw [alookup_aerase, if_neg htb2]
              exact htab2
            by_cases hemp : aerase tm tb = []
            · exact absurd hemp (alookup_isSome_ne_nil hsurv)
            · rw [if_neg hemp]
              unfold lookup2
              dsimp only
              rw [← hkey, alookup_aupsert_self]
              simp only [Option.some_bind]
              exact hsurv
        · by_cases hemp : aerase tm tb = []
          · rw [if_pos hemp]
            unfold lookup2
            dsimp only
            rw [alookup_aerase, if_neg (fun hh => hkey hh.symm), htm2]
            simp only [Option.some_bind]
            exact htab2
          · rw [if_neg hemp]
            unfold lookup2
            dsimp only
            rw [alookup_aupsert, if_neg hkey, htm2]
            simp only [Option.some_bind]
            exact htab2

/-- Witness for C4: rolling back the committed entry is refused unchanged and the entry is
still present afterwards. -/
theorem c4_rollback_committed_rejected_witness :
    rollback_txn sCommitted 1 1 tab0 = (Status.transactionAlreadyCommitted, sCommitted) ∧
      lookup2 (rollback_txn sCommitted 1 1 tab0).2 (1, 1) tab0 = some infoA :=
  ⟨(c4_rollback_committed_rejected sCommitted 1 1 tab0).1 infoA rowA (by decide) rfl,
    (c4_rollback_committed_rejected sCommitted 1 1 tab0).2 1 1 tab0 infoA rowA (by decide)
      rfl⟩

/-- The insert path of `prepare_txn` (proof helper): not a duplicate of a committed entry and
under the ceiling, so a fresh empty entry is written and the partition index updated. -/
theorem prepare_txn_insert (cfg : Nat) (n : Int) (s : LedgerState) (p t : Int)
    (tb : TabletInfo) (l : PUniqueId) (ing : Bool)
    (hdup : ¬(prepareDupCommitted s (p, t) tb l = true))
    (hlen : ¬(s.partitionMap.length > cfg)) :
    prepare_txn cfg n s p t tb l ing =
      (Status.ok,
        { s with
          tabletMap := aupsert s.tabletMap (p, t)
            (aupsert ((alookup s.tabletMap (p, t)).getD []) tb
              { load_id := l, rowset := none, ingest := ing, creation_time := n,
                unique_key_merge_on_write := false, delete_bitmap := none,
                rowset_ids := [] }),
          partitionMap := insertPartition s.partitionMap t p }) := by
  simp only [prepare_txn]
  rw [if_neg hdup, if_neg hlen]

/-- Counterexample to claim C7: with a transaction ceiling of 0 the first prepare inserts and
raises the shard's transaction count to 1, so the second identical prepare fails with
`tooManyTransactions` instead of returning success. -/
theorem c7_counterexample_second_prepare_too_many :
    (prepare_txn 0 1 (prepare_txn 0 0 emptyLedger 1 1 tab0 loadA false).2 1 1 tab0 loadA
        false).1 = Status.tooManyTransactions ∧
      ¬((prepare_txn 0 1 (prepare_txn 0 0 emptyLedger 1 1 tab0 loadA false).2 1 1 tab0 loadA
          false).1 = Status.ok) := by
  decide

/-- Claim C7 (corrected): provided the shard's transaction count after the first prepare does
not exceed the ceiling, a second prepare with the same arguments returns success and leaves
the shard exactly as one prepare issued at the second call's time would (a single entry, no
duplicates); without the proviso the second call can fail with `tooManyTransactions`. -/
theorem c7_prepare_idempotent (cfg : Nat) (t1 t2 : Int) (s : LedgerState) (p t : Int)
    (tb : TabletInfo) (l : PUniqueId) (ing : Bool)
    (hcap : (prepare_txn cfg t1 s p t tb l ing).2.partitionMap.length ≤ cfg) :
    (prepare_txn cfg t2 (prepare_txn cfg t1 s p t tb l ing).2 p t tb l ing).1 = Status.ok ∧
      (prepare_txn cfg t2 (prepare_txn cfg t1 s p t tb l ing).2 p t tb l ing).2 =
        (prepare_txn cfg t2 s p t tb l ing).2 := by
  by_cases hdup : prepareDupCommitted s (p, t) tb l = true
  · have e1 : prepare_txn cfg t1 s p t tb l ing = (Status.ok, s) := by
      simp only [prepare_txn]
      rw [if_pos hdup]
    have e2 : prepare_txn cfg t2 s p t tb l ing = (Status.ok, s) := by
      simp only [prepare_txn]
      rw [if_pos hdup]
    rw [e1]
    dsimp only
    rw [e2]
    exact ⟨rfl, rfl⟩
  · by_cases hlen : s.partitionMap.length > cfg
    · exfalso
      have e1 : prepare_txn cfg t1 s p t tb l ing = (Status.tooManyTransactions, s) := by
        simp only [prepare_txn]
        rw [if_neg hdup, if_pos hlen]
      rw [e1] at hcap
      dsimp only at hcap
      omega
    · have e1 := prepare_txn_insert cfg t1 s p t tb l ing hdup hlen
      rw [e1] at hcap ⊢
      dsimp only at hcap ⊢
      have hdup2 : ¬(prepareDupCommitted
          { s with
            tabletMap := aupsert s.tabletMap (p, t)
              (aupsert ((alookup s.tabletMap (p, t)).getD []) tb
                { load_id := l, rowset := none, ingest := ing, creation_time := t1,
                  unique_key_merge_on_write := false, delete_bitmap := none,
                  rowset_ids := [] }),
            partitionMap := insertPartition s.partitionMap t p } (p, t) tb l = true) := by
        unfold prepareDupCommitted lookup2
        dsimp only
        rw [alookup_aupsert_self]
        simp only [Option.some_bind]
        rw [alookup_aupsert_self]
        simp
      have hlen2 : ¬((insertPartition s.partitionMap t p).length > cfg) := by
        omega
      have e2 := prepare_txn_insert cfg t2 _ p t tb l ing hdup2 hlen2
      rw [e2]
      refine ⟨rfl, ?_⟩
      dsimp only
      rw [prepare_txn_insert cfg t2 s p t tb l ing hdup hlen]
      dsimp only
      simp [alookup_aupsert_self, aupsert_aupsert, insertPartition_idem]

/-- Witness for C7 (amended): two identical prepares on the empty shard under a generous
ceiling — the second succeeds and the state equals a single prepare at the second time. -/
theorem c7_prepare_idempotent_witness :
    (prepare_txn 10 1 (prepare_txn 10 0 emptyLedger 1 1 tab0 loadA false).2 1 1 tab0 loadA
        false).1 = Status.ok ∧
      (prepare_txn 10 1 (prepare_txn 10 0 emptyLedger 1 1 tab0 loadA false).2 1 1 tab0 loadA
          false).2 = (prepare_txn 10 1 emptyLedger 1 1 tab0 loadA false).2 :=
  c7_prepare_idempotent 10 0 1 emptyLedger 1 1 tab0 loadA false (by decide)
